import Mathlib

/-!
Verification development for the per-document proof-state coordinator of the
vscoq language server.  The definitions below are a shallow embedding of the
server-side `CoqDocument` controller (`src/unnamed/part_000`): document text is
a `List Char`, positions and ranges follow the LSP convention, controller
methods are pure functions from a document state to a result, a successor
state, and an ordered trace of client notifications.  The state machine
`CoqStateMachine` (STM), the sentence parser `coq-parser` and the position
utilities `text-util` are external to the sources; where their behaviour is
needed it is modelled from the specification and marked as such.
-/

namespace VsCoq

/-- An LSP position: zero-based line and UTF-16 column (`vscode-languageserver`). -/
structure Position where
  line : Nat
  character : Nat
deriving DecidableEq, Repr

/-- A half-open range `[start, stop)` of positions.  The source field name is
`end`, which is a reserved word here, so the field is called `stop`. -/
structure Range where
  start : Position
  stop : Position
deriving DecidableEq, Repr

/-- Modelled from the spec: `text-util.positionIsAfter` (text-util is not under
`src/`).  Strict lexicographic order on (line, character). -/
def positionIsAfter (p q : Position) : Bool :=
  decide (q.line < p.line ∨ (p.line = q.line ∧ q.character < p.character))

/-- Modelled from the spec: `text-util.offsetAt` (text-util is not under
`src/`); skips `pos.line` line breaks (recognizing `\r\n`, `\r`, `\n`
independently per line, spec section 4.1) and returns consumed characters. -/
def skipLines : List Char → Nat → (List Char × Nat)
  | t, 0 => (t, 0)
  | [], _ + 1 => ([], 0)
  | '\r' :: '\n' :: rest, n + 1 =>
      let r := skipLines rest n
      (r.1, r.2 + 2)
  | '\n' :: rest, n + 1 =>
      let r := skipLines rest n
      (r.1, r.2 + 1)
  | '\r' :: rest, n + 1 =>
      let r := skipLines rest n
      (r.1, r.2 + 1)
  | _ :: rest, n + 1 =>
      let r := skipLines rest (n + 1)
      (r.1, r.2 + 1)

/-- Modelled from the spec: within a line, advance at most `n` characters,
stopping at a line break or the end of the text. -/
def skipChars : List Char → Nat → Nat
  | _, 0 => 0
  | [], _ + 1 => 0
  | '\n' :: _, _ + 1 => 0
  | '\r' :: _, _ + 1 => 0
  | _ :: rest, n + 1 => 1 + skipChars rest n

/-- Modelled from the spec: `text-util.offsetAt` — the character offset of an
LSP position in the document text. -/
def offsetAt (t : List Char) (p : Position) : Nat :=
  let r := skipLines t p.line
  r.2 + skipChars r.1 p.character

/-- Modelled from the spec: `text-util.positionAt` — the LSP position of a
character offset; the inverse walk of `offsetAt`. -/
def positionAtGo : List Char → Nat → Nat → Nat → Position
  | _, 0, l, c => ⟨l, c⟩
  | [], _ + 1, l, c => ⟨l, c⟩
  | '\r' :: '\n' :: rest, n + 1, l, c =>
      match n with
      | 0 => ⟨l, c + 1⟩
      | m + 1 => positionAtGo rest m (l + 1) 0
  | '\n' :: rest, n + 1, l, _ => positionAtGo rest n (l + 1) 0
  | '\r' :: rest, n + 1, l, _ => positionAtGo rest n (l + 1) 0
  | _ :: rest, n + 1, l, c => positionAtGo rest n l (c + 1)

/-- Modelled from the spec: `text-util.positionAt`. -/
def positionAt (t : List Char) (off : Nat) : Position :=
  positionAtGo t off 0 0

/-- `positionAt` on a JavaScript number offset; negative offsets clamp to 0. -/
def positionAtI (t : List Char) (off : Int) : Position :=
  positionAt t off.toNat

/-- JavaScript `String.prototype.substr start length`: take `length` characters
from `start` (negative `start` counts from the end, negative lengths are empty). -/
def jsSubstr (t : List Char) (start length : Int) : List Char :=
  let st : Nat := if start < 0 then ((t.length : Int) + start).toNat else start.toNat
  (t.drop st).take length.toNat

/-- JavaScript `String.prototype.substring a b`: clamp both indices to the text
and swap them when `a > b`. -/
def jsSubstring (t : List Char) (a b : Int) : List Char :=
  let a' : Nat := min a.toNat t.length
  let b' : Nat := min b.toNat t.length
  (t.take (max a' b')).drop (min a' b')

/-- A sentence-terminating period: `.` followed by whitespace or end of input
(spec section 4.2, rule 1). -/
def isSentenceEnd : List Char → Bool
  | '.' :: [] => true
  | '.' :: c :: _ => c = ' ' ∨ c = '\n' ∨ c = '\r' ∨ c = '\t'
  | _ => false

/-- Modelled from the spec: `coq-parser.parseSentence` (coq-parser is not under
`src/`).  Returns the number of characters consumed up to and including the
first sentence terminator — a period followed by whitespace or end of input —
and `-1` when no terminator is found (the Incomplete/Empty outcomes).  The
comment, string, bullet and brace rules of the full grammar are not exercised
by the plain proof-script texts used in this development. -/
def parseSentenceGo : List Char → Nat → Int
  | [], _ => -1
  | c :: rest, n =>
      if isSentenceEnd (c :: rest) then (n : Int) + 1 else parseSentenceGo rest (n + 1)

/-- Modelled from the spec: `coq-parser.parseSentence`; see `parseSentenceGo`. -/
def parseSentence (text : List Char) : Int :=
  parseSentenceGo text 0

/-! ### Protocol types (`protocol.ts` / `coq-proto.ts` as used by the controller) -/

/-- The closed set of client highlight styles (`thmProto.HighlightType`). -/
inductive HighlightType
  | Clear
  | Parsing
  | Processing
  | InProgress
  | Incomplete
  | Processed
  | Complete
  | TacticFailure
deriving DecidableEq, Repr

/-- The sentence statuses delivered by the STM's status events
(`coqProto.SentenceStatus` as consumed in `sentenceStatusToHighlightType`);
the spec calls `ProcessingInput` simply "Processing". -/
inductive SentenceStatus
  | Parsed
  | ProcessingInput
  | InProgress
  | Incomplete
  | Processed
  | Complete
deriving DecidableEq, Repr

/-- A client highlight: a style attached to a range (`thmProto.Highlight`). -/
structure Highlight where
  style : HighlightType
  range : Range
deriving DecidableEq, Repr

/-- LSP diagnostic severity. -/
inductive DiagnosticSeverity
  | Error
  | Warning
  | Information
  | Hint
deriving DecidableEq, Repr

/-- An LSP diagnostic as built by `Diagnostic.create` in `updateDiagnostics`. -/
structure Diagnostic where
  range : Range
  message : String
  severity : DiagnosticSeverity
  source : String
deriving DecidableEq, Repr

/-- An error recorded against a sentence by the STM (`stm.getErrors()` items). -/
structure StmError where
  range : Range
  message : String
deriving DecidableEq, Repr

/-- One notification emitted through the `DocumentCallbacks` bag (or the
client console), in emission order. -/
inductive Output
  | sendHighlightUpdates (highlights : List Highlight)
  | sendDiagnostics (diagnostics : List Diagnostic)
  | sendReset
  | consoleError (message : String)
deriving DecidableEq, Repr

/-- The STM's goal result (`STM.GoalResult`, per the tag comment in `toGoal`):
a tagged union with no focus position attached. -/
inductive GoalResult
  | notRunning
  | noProof
  | proofView (goals : List String)
  | failure (message : String) (range : Range)
  | interrupted
deriving DecidableEq, Repr

/-- The controller's command result (`thmProto.CommandResult`): the same tags,
with a `focus` position attached to every variant except `not-running`. -/
inductive CommandResult
  | notRunning
  | noProof (focus : Position)
  | proofView (goals : List String) (focus : Position)
  | failure (message : String) (range : Range) (focus : Position)
  | interrupted (focus : Position)
deriving DecidableEq, Repr

/-- The focus position carried by a `CommandResult`, when there is one. -/
def CommandResult.focusOf : CommandResult → Option Position
  | .notRunning => none
  | .noProof f => some f
  | .proofView _ f => some f
  | .failure _ _ f => some f
  | .interrupted f => some f

/-- Forgetting the focus annotation of a `CommandResult` recovers a `GoalResult`. -/
def CommandResult.stripFocus : CommandResult → GoalResult
  | .notRunning => .notRunning
  | .noProof _ => .noProof
  | .proofView g _ => .proofView g
  | .failure m r _ => .failure m r
  | .interrupted _ => .interrupted

/-- A text edit batch item (`TextDocumentContentChangeEvent`). -/
structure TextDocumentContentChangeEvent where
  range : Range
  rangeLength : Nat
  text : List Char
deriving DecidableEq, Repr

/-- An LSP cancellation token, reduced to its observable cancelled flag. -/
abbrev CancellationToken := Bool

/-! ### The STM as seen by the controller

`CoqStateMachine` is not under `src/`; the controller only observes it through
the calls it makes.  `StmState` is the observable state (running flag, focused
position, error set) and `StmBehavior` packages the results of the STM calls
the controller issues, so every controller-level theorem below is quantified
over all possible STM behaviours. -/

/-- The observable state of a `CoqStateMachine` instance. -/
structure StmState where
  running : Bool
  focus : Position
  errors : List StmError
deriving DecidableEq, Repr

/-- Modelled from the spec: a newly constructed `CoqStateMachine` (the STM
source is not under `src/`) is running with an empty spine — focus at the
document origin and no recorded errors (spec section 7, ProverDied recovery,
and scenario S6: "after reset, spine is empty and focus is at origin"). -/
def freshStm : StmState :=
  { running := true, focus := ⟨0, 0⟩, errors := [] }

/-- The results of the STM calls issued by the controller: `stepForward` and
`interpretToPoint` return an optional error result, the successor STM state and
the notifications the STM emitted through the callback bag; `applyChanges` may
fail (the controller catches the failure); `getGoal` and `stepBackward` are as
in the source.  The command iterator the controller hands over is a function of
the controller state, so it is absorbed into the behaviour. -/
structure StmBehavior where
  stepForward : StmState → Option CommandResult × StmState × List Output
  interpretToPoint : StmState → Position → CancellationToken →
    Option CommandResult × StmState × List Output
  stepBackward : StmState → StmState × List Output
  applyChanges : StmState → List TextDocumentContentChangeEvent → Int →
    Except String StmState
  getGoal : StmState → GoalResult

/-! ### The controller state and its helper methods -/

/-- The controller-owned state of a `CoqDocument`: the document text, the LSP
version counter, the current STM instance (`null` after `quitCoq`), and a
generation counter that counts `CoqStateMachine` constructions so that prover
restarts are observable. -/
structure CoqDocumentState where
  documentText : List Char
  version : Int
  stm : Option StmState
  stmGeneration : Nat
deriving DecidableEq, Repr

/-- Whether `this.stm` exists and `this.stm.isRunning()` holds. -/
def stmIsRunning (st : CoqDocumentState) : Bool :=
  match st.stm with
  | some s => s.running
  | none => false

/-- The current STM error set (`this.stm.getErrors()`), empty with no STM. -/
def stmErrorsOf (st : CoqDocumentState) : List StmError :=
  match st.stm with
  | some s => s.errors
  | none => []

namespace CoqDocument

/-- `resetCoq` (source lines 248-259): shut the old STM down when it is running
and construct a fresh `CoqStateMachine`; the generation counter records the
construction. -/
def resetCoq (st : CoqDocumentState) : CoqDocumentState :=
  { st with stm := some freshStm, stmGeneration := st.stmGeneration + 1 }

/-- `assertStm` (source lines 694-698): if there is no STM or it is not
running, call `resetCoq` — i.e. restart the prover. -/
def assertStm (st : CoqDocumentState) : CoqDocumentState :=
  if stmIsRunning st then st else resetCoq st

/-- The STM instance in scope after `assertStm`; `assertStm` guarantees the
`some` branch, the `none` fallback is unreachable. -/
def assertedStm (st : CoqDocumentState) : StmState :=
  match (assertStm st).stm with
  | some s => s
  | none => freshStm

/-- `applyEditToDocument` (source lines 82-87): splice `change.text` over the
`change.rangeLength` characters at offset `begin`. -/
def applyEditToDocument (documentText : List Char) (begin : Nat)
    (change : TextDocumentContentChangeEvent) : List Char :=
  documentText.take begin ++ change.text ++ documentText.drop (begin + change.rangeLength)

/-- `updateDiagnostics` (source lines 743-750): rebuild the diagnostics list
from scratch, one `Diagnostic.create(range, message, Error, undefined, coqtop)`
per STM error, and send the whole list. -/
def updateDiagnostics (errors : List StmError) : List Diagnostic :=
  errors.map fun error =>
    { range := error.range, message := error.message
      severity := DiagnosticSeverity.Error, source := "coqtop" }

/-- `sentenceStatusToHighlightType` (source lines 142-157). -/
def sentenceStatusToHighlightType : SentenceStatus → HighlightType
  | SentenceStatus.Complete => HighlightType.Complete
  | SentenceStatus.Incomplete => HighlightType.Incomplete
  | SentenceStatus.InProgress => HighlightType.InProgress
  | SentenceStatus.Parsed => HighlightType.Parsing
  | SentenceStatus.Processed => HighlightType.Processed
  | SentenceStatus.ProcessingInput => HighlightType.Processing

/-- `highlightSentence` (source lines 178-182). -/
def highlightSentence (sentence : Range) (type : HighlightType) : Highlight :=
  { style := type, range := sentence }

/-- `onCoqStateStatusUpdate` (source lines 207-211): one highlight per status
event, through the fixed status-to-style mapping. -/
def onCoqStateStatusUpdate (range : Range) (status : SentenceStatus) : List Output :=
  [Output.sendHighlightUpdates [highlightSentence range (sentenceStatusToHighlightType status)]]

/-- `onClearSentence` (source lines 213-217): a `Clear` highlight for the range. -/
def onClearSentence (range : Range) : List Output :=
  [Output.sendHighlightUpdates [highlightSentence range HighlightType.Clear]]

/-- `onCoqStateError` (source lines 219-230): a `TacticFailure` highlight on the
sentence range, then the rebuilt diagnostics; `errorRange` and `message` flow
into the STM error set, not directly into the notifications. -/
def onCoqStateError (sentenceRange : Range) (errorRange : Range) (message : String)
    (stmErrors : List StmError) : List Output :=
  [Output.sendHighlightUpdates [highlightSentence sentenceRange HighlightType.TacticFailure],
   Output.sendDiagnostics (updateDiagnostics stmErrors)]

/-- `onCoqDied` (source lines 241-246): `if(!error) return;` — a death without
a reason (or with an empty reason string) is ignored; otherwise the prover is
restarted via `resetCoq` and a reset notification is sent. -/
def onCoqDied (error : Option String) (st : CoqDocumentState) :
    CoqDocumentState × List Output :=
  if (error.getD "").isEmpty then (st, [])
  else (resetCoq st, [Output.sendReset])

/-- `toGoal` (source lines 710-741): annotate every `GoalResult` variant except
`not-running` with `this.stm.getFocusedPosition()`. -/
def toGoal (focusedPosition : Position) : GoalResult → CommandResult
  | GoalResult.notRunning => CommandResult.notRunning
  | GoalResult.noProof => CommandResult.noProof focusedPosition
  | GoalResult.proofView g => CommandResult.proofView g focusedPosition
  | GoalResult.failure m r => CommandResult.failure m r focusedPosition
  | GoalResult.interrupted => CommandResult.interrupted focusedPosition

end CoqDocument

/-! ### The command-sequence generator

`commandSequenceGenerator` (source lines 273-304) is a JavaScript generator:
the consumer (the STM) pulls commands one at a time, and code between a `yield`
and the next one runs only when the next command is pulled.  It is embedded as
a step function `genPull` on an explicit generator state; `genPulls n` is the
event trace observed when the consumer pulls `n` times. -/

/-- The suspended state of a `commandSequenceGenerator` instance:
`currentOffset` is the parsing cursor, `pending` is the range of the last
yielded command whose post-yield highlight has not run yet, `isDone` records
that the generator returned. -/
structure GenState where
  currentOffset : Int
  pending : Option Range
  isDone : Bool
deriving DecidableEq, Repr

/-- An event observed while driving the generator: a yielded command (with its
offsets, text and range) or a `Parsing` highlight sent to the client. -/
inductive GenEvent
  | yielded (startOff endOff : Int) (text : List Char) (range : Range)
  | highlight (range : Range)
deriving DecidableEq, Repr

/-- Whether an event is a `Parsing` highlight emission. -/
def GenEvent.isHighlightEvt : GenEvent → Bool
  | GenEvent.highlight _ => true
  | GenEvent.yielded _ _ _ _ => false

namespace CoqDocument

/-- The prologue of `commandSequenceGenerator` (source lines 273-282): compute
`endOffset` (the document length when `end` is absent, otherwise capped at the
document length) and the initial cursor, returning immediately when the cursor
already reaches `endOffset`. -/
def commandSequenceGeneratorInit (documentText : List Char) (beginPos : Position)
    (endPos : Option Position) : GenState × Int :=
  let endOffset : Int :=
    match endPos with
    | none => documentText.length
    | some e => min (offsetAt documentText e : Int) (documentText.length : Int)
  let currentOffset : Int := offsetAt documentText beginPos
  ({ currentOffset := currentOffset, pending := none,
     isDone := decide (currentOffset ≥ endOffset) }, endOffset)

/-- One pull on the generator (the loop body, source lines 284-303).  On
resumption the post-yield highlight of the previous command is sent first (only
when `highlight` is set); then `parseSentence` runs on
`documentText.substr(currentOffset, endOffset)` — note the source passes the
end offset where `substr` expects a length — and the command is yielded when
`commandLength > 0 || nextOffset > endOffset`, else the generator returns. -/
def genPull (documentText : List Char) (endOffset : Int) (highlight : Bool)
    (g : GenState) : GenState × List GenEvent :=
  if g.isDone then (g, [])
  else
    let hEvts : List GenEvent :=
      match g.pending with
      | some r => if highlight then [GenEvent.highlight r] else []
      | none => []
    let commandLength := parseSentence (jsSubstr documentText g.currentOffset endOffset)
    let nextOffset := g.currentOffset + commandLength
    if commandLength > 0 ∨ nextOffset > endOffset then
      let r : Range :=
        { start := positionAtI documentText g.currentOffset
          stop := positionAtI documentText nextOffset }
      ({ currentOffset := nextOffset, pending := some r, isDone := false },
       hEvts ++ [GenEvent.yielded g.currentOffset nextOffset
                  (jsSubstring documentText g.currentOffset nextOffset) r])
    else ({ g with isDone := true }, hEvts)

/-- The event trace of `pulls` successive pulls on the generator. -/
def genPulls (documentText : List Char) (endOffset : Int) (highlight : Bool) :
    Nat → GenState → List GenEvent
  | 0, _ => []
  | Nat.succ n, g =>
      (genPull documentText endOffset highlight g).2 ++
        genPulls documentText endOffset highlight n
          (genPull documentText endOffset highlight g).1

/-- `commandSequence` (source lines 306-308) as a trace: the factory takes a
`highlight` flag but calls `commandSequenceGenerator(begin, end)` without
forwarding it, so the generator always runs with its default `highlight = false`. -/
def commandSequence (highlight : Bool) (documentText : List Char)
    (beginPos : Position) (endPos : Option Position) (pulls : Nat) : List GenEvent :=
  genPulls documentText
    (commandSequenceGeneratorInit documentText beginPos endPos).2 false pulls
    (commandSequenceGeneratorInit documentText beginPos endPos).1

/-! ### The controller operations

Each public operation is a function from an `StmBehavior` and a
`CoqDocumentState` to the returned `CommandResult`, the successor state, and
the trace of notifications, in emission order.  `try { ... } finally
{ this.updateDiagnostics(); }` appears as the trailing `sendDiagnostics`
element of each trace. -/

/-- `stepForward` (source lines 753-768). -/
def stepForward (B : StmBehavior) (st : CoqDocumentState) :
    CommandResult × CoqDocumentState × List Output :=
  let st1 := assertStm st
  let s := assertedStm st
  let r := B.stepForward s
  let s2 := r.2.1
  let result :=
    match r.1 with
    | some e => e
    | none => toGoal s2.focus (B.getGoal s2)
  (result, { st1 with stm := some s2 },
   r.2.2 ++ [Output.sendDiagnostics (updateDiagnostics s2.errors)])

/-- `stepBackward` (source lines 770-779). -/
def stepBackward (B : StmBehavior) (st : CoqDocumentState) :
    CommandResult × CoqDocumentState × List Output :=
  let st1 := assertStm st
  let s := assertedStm st
  let r := B.stepBackward s
  let s2 := r.1
  (toGoal s2.focus (B.getGoal s2), { st1 with stm := some s2 },
   r.2 ++ [Output.sendDiagnostics (updateDiagnostics s2.errors)])

/-- `interpretToPoint` (source lines 781-798): assert the STM, send a blanket
`Parsing` highlight from the focused position to the target, call the STM's
`interpretToPoint`, and return its error result or the wrapped goal; the
`finally` sends the rebuilt diagnostics. -/
def interpretToPoint (B : StmBehavior) (st : CoqDocumentState) (offset : Int)
    (token : CancellationToken) :
    CommandResult × CoqDocumentState × List Output :=
  let st1 := assertStm st
  let s := assertedStm st
  let pos := positionAtI st1.documentText offset
  let parsingHighlights : List Highlight :=
    [{ style := HighlightType.Parsing, range := { start := s.focus, stop := pos } }]
  let r := B.interpretToPoint s pos token
  let s2 := r.2.1
  let result :=
    match r.1 with
    | some e => e
    | none => toGoal s2.focus (B.getGoal s2)
  (result, { st1 with stm := some s2 },
   Output.sendHighlightUpdates parsingHighlights ::
     (r.2.2 ++ [Output.sendDiagnostics (updateDiagnostics s2.errors)]))

/-- `interpretToEnd` (source lines 800-811): assert the STM, then call the
controller's own `interpretToPoint` at `this.documentText.length`.  The inner
call always returns a `CommandResult` object, which is truthy in JavaScript, so
`if(error) return error;` always returns it — and the outer `finally` sends
the rebuilt diagnostics a second time. -/
def interpretToEnd (B : StmBehavior) (st : CoqDocumentState)
    (token : CancellationToken) :
    CommandResult × CoqDocumentState × List Output :=
  let st1 := assertStm st
  let r := interpretToPoint B st1 (st1.documentText.length : Int) token
  (r.1, r.2.1, r.2.2 ++ [Output.sendDiagnostics (updateDiagnostics (stmErrorsOf r.2.1))])

/-- `getGoal` (source lines 813-822): with no running STM, return `not-running`
at once — before the `try`, so no diagnostics are sent on that path. -/
def getGoal (B : StmBehavior) (st : CoqDocumentState) :
    CommandResult × CoqDocumentState × List Output :=
  match st.stm with
  | some s =>
      if s.running then
        (toGoal s.focus (B.getGoal s), st,
         [Output.sendDiagnostics (updateDiagnostics s.errors)])
      else (CommandResult.notRunning, st, [])
  | none => (CommandResult.notRunning, st, [])

/-- The try/catch around `this.stm.applyChanges` in `applyTextEdits` (source
lines 102-106): a failure — including the `TypeError` of calling through a
`null` STM — is logged to the client console and otherwise ignored. -/
def applyTextEditsStmPart (B : StmBehavior) (stm : Option StmState)
    (sortedChanges : List TextDocumentContentChangeEvent) (newVersion : Int) :
    Option StmState × List Output :=
  match stm with
  | some s =>
      match B.applyChanges s sortedChanges newVersion with
      | Except.ok s2 => (some s2, [])
      | Except.error e =>
          (some s, [Output.consoleError ("STM crashed while applying text edit: " ++ e)])
  | none => (none, [Output.consoleError "STM crashed while applying text edit: TypeError"])

/-- The sort order of `applyTextEdits` (source lines 98-100): the comparator
puts `change1` first exactly when its start position is after `change2`'s, so
the batch is ordered by descending start position. -/
def changeLE (c1 c2 : TextDocumentContentChangeEvent) : Prop :=
  positionIsAfter c2.range.start c1.range.start = false

instance : DecidableRel changeLE := fun c1 c2 => by
  unfold changeLE; infer_instance

/-- Applying one change of the batch (the loop body, source lines 108-120):
the begin offset is computed against the current — already partially edited —
document text. -/
def applyChangeStep (t : List Char) (change : TextDocumentContentChangeEvent) : List Char :=
  applyEditToDocument t (offsetAt t change.range.start) change

/-- `applyTextEdits` (source lines 96-128): sort the changes so that later
edits are processed first, hand them to the STM (failures are logged and
swallowed), splice every change into the document text, and set the version
counter to `newVersion` — there is no version-monotonicity check. -/
def applyTextEdits (B : StmBehavior) (st : CoqDocumentState)
    (changes : List TextDocumentContentChangeEvent) (newVersion : Int) :
    CoqDocumentState × List Output :=
  let sortedChanges := List.insertionSort changeLE changes
  let stmR := applyTextEditsStmPart B st.stm sortedChanges newVersion
  let newText := sortedChanges.foldl applyChangeStep st.documentText
  ({ st with documentText := newText, version := newVersion, stm := stmR.1 }, stmR.2)

end CoqDocument

/-! ### Concrete witnesses

A deterministic STM behaviour and concrete document states used to evaluate
the controller on explicit inputs. -/

/-- A concrete STM behaviour: the mutating calls succeed without emitting
notifications, `getGoal` reports no open proof, and `applyChanges` rejects the
batch (as the spec's StaleEdit would). -/
def stmB0 : StmBehavior where
  stepForward := fun s => (none, s, [])
  interpretToPoint := fun s _ _ => (none, s, [])
  stepBackward := fun s => (s, [])
  applyChanges := fun _ _ _ => Except.error "version is not monotone"
  getGoal := fun _ => GoalResult.noProof

/-- A concrete recorded sentence error (scenario S2 of the spec). -/
def sampleError : StmError :=
  { range := ⟨⟨0, 3⟩, ⟨0, 7⟩⟩, message := "syntax" }

/-- An STM instance that is no longer running and still holds one error. -/
def deadStm : StmState :=
  { running := false, focus := ⟨0, 2⟩, errors := [sampleError] }

/-- A running STM instance with a clean error set. -/
def runningStm : StmState :=
  { running := true, focus := ⟨0, 0⟩, errors := [] }

/-- A document state whose prover has died. -/
def stDead : CoqDocumentState :=
  { documentText := "A. B. C.".toList, version := 5, stm := some deadStm,
    stmGeneration := 1 }

/-- A document state with a running prover. -/
def stRunning : CoqDocumentState :=
  { documentText := "A. B. C.".toList, version := 5, stm := some runningStm,
    stmGeneration := 1 }

/-- A one-character replacement at the start of the document. -/
def sampleChange : TextDocumentContentChangeEvent :=
  { range := ⟨⟨0, 0⟩, ⟨0, 1⟩⟩, rangeLength := 1, text := "X".toList }

/-! ### Helper lemmas -/

/-- After `assertStm` the STM exists and is running. -/
theorem assertStm_running (st : CoqDocumentState) :
    stmIsRunning (CoqDocument.assertStm st) = true := by
  unfold CoqDocument.assertStm
  split
  · assumption
  · rfl

/-- `assertStm` does nothing on a state whose STM is already running. -/
theorem assertStm_of_running (st : CoqDocumentState) (h : stmIsRunning st = true) :
    CoqDocument.assertStm st = st := by
  unfold CoqDocument.assertStm
  rw [if_pos h]

/-- `assertStm` is idempotent. -/
theorem assertStm_idem (st : CoqDocumentState) :
    CoqDocument.assertStm (CoqDocument.assertStm st) = CoqDocument.assertStm st :=
  assertStm_of_running _ (assertStm_running st)

/-- `assertStm` does not touch the document text. -/
theorem assertStm_documentText (st : CoqDocumentState) :
    (CoqDocument.assertStm st).documentText = st.documentText := by
  unfold CoqDocument.assertStm
  split <;> rfl

/-- `assertStm` bumps the STM generation exactly when the STM was not running. -/
theorem assertStm_stmGeneration (st : CoqDocumentState) :
    (CoqDocument.assertStm st).stmGeneration =
      (if stmIsRunning st then st.stmGeneration else st.stmGeneration + 1) := by
  unfold CoqDocument.assertStm
  split <;> simp_all [CoqDocument.resetCoq]

/-- The STM in scope after asserting twice is the one after asserting once. -/
theorem assertedStm_assertStm (st : CoqDocumentState) :
    CoqDocument.assertedStm (CoqDocument.assertStm st) = CoqDocument.assertedStm st := by
  unfold CoqDocument.assertedStm
  rw [assertStm_idem]

/-- `interpretToPoint` only reads its document state through `assertStm`, so a
pre-asserted state gives the same run. -/
theorem interpretToPoint_assertStm (B : StmBehavior) (st : CoqDocumentState)
    (offset : Int) (token : CancellationToken) :
    CoqDocument.interpretToPoint B (CoqDocument.assertStm st) offset token =
      CoqDocument.interpretToPoint B st offset token := by
  unfold CoqDocument.interpretToPoint
  rw [assertStm_idem, assertedStm_assertStm]

/-- With the highlight flag off, a single pull emits no highlight events. -/
theorem genPull_no_highlight_of_flag_false (documentText : List Char) (endOffset : Int)
    (g : GenState) :
    ((CoqDocument.genPull documentText endOffset false g).2).filter GenEvent.isHighlightEvt = [] := by
  unfold CoqDocument.genPull
  rcases g with ⟨co, pending, d⟩
  rcases d <;> rcases pending <;>
    simp [GenEvent.isHighlightEvt] <;> split <;> simp [GenEvent.isHighlightEvt]

/-- With no pending yielded command, a single pull emits no highlight events
regardless of the highlight flag: the highlight of a command runs only after
the command has been yielded and the consumer has pulled again. -/
theorem genPull_no_highlight_of_pending_none (documentText : List Char) (endOffset : Int)
    (highlight : Bool) (g : GenState) (h : g.pending = none) :
    ((CoqDocument.genPull documentText endOffset highlight g).2).filter GenEvent.isHighlightEvt = [] := by
  unfold CoqDocument.genPull
  rcases g with ⟨co, pending, d⟩
  cases h
  rcases d <;> simp [GenEvent.isHighlightEvt] <;> split <;> simp [GenEvent.isHighlightEvt]

/-- With the highlight flag off, no number of pulls emits a highlight event. -/
theorem genPulls_no_highlight_of_flag_false (documentText : List Char) (endOffset : Int) :
    ∀ (pulls : Nat) (g : GenState),
      ((CoqDocument.genPulls documentText endOffset false pulls g).filter GenEvent.isHighlightEvt) = []
  | 0, _ => rfl
  | Nat.succ n, g => by
      unfold CoqDocument.genPulls
      rw [List.filter_append, genPull_no_highlight_of_flag_false,
        genPulls_no_highlight_of_flag_false documentText endOffset n]
      rfl

/-- `changeLE` is total: position order is a strict linear order, so of any two
changes one starts no earlier than the other. -/
instance : IsTotal TextDocumentContentChangeEvent CoqDocument.changeLE where
  total a b := by
    unfold CoqDocument.changeLE positionIsAfter
    simp only [decide_eq_false_iff_not]
    omega

/-- `changeLE` is transitive. -/
instance : IsTrans TextDocumentContentChangeEvent CoqDocument.changeLE where
  trans a b c := by
    unfold CoqDocument.changeLE positionIsAfter
    simp only [decide_eq_false_iff_not]
    omega

/-- The notification trace of `stepForward` ends with the rebuilt diagnostics
of the final STM state. -/
theorem stepForward_trace (B : StmBehavior) (st : CoqDocumentState) :
    (CoqDocument.stepForward B st).2.2 =
      (B.stepForward (CoqDocument.assertedStm st)).2.2 ++
        [Output.sendDiagnostics (CoqDocument.updateDiagnostics
          (stmErrorsOf (CoqDocument.stepForward B st).2.1))] := rfl

/-- The notification trace of `stepBackward` ends with the rebuilt diagnostics
of the final STM state. -/
theorem stepBackward_trace (B : StmBehavior) (st : CoqDocumentState) :
    (CoqDocument.stepBackward B st).2.2 =
      (B.stepBackward (CoqDocument.assertedStm st)).2 ++
        [Output.sendDiagnostics (CoqDocument.updateDiagnostics
          (stmErrorsOf (CoqDocument.stepBackward B st).2.1))] := rfl

/-- The notification trace of `interpretToPoint` is the blanket parsing
highlight, the STM's own notifications, then the rebuilt diagnostics. -/
theorem interpretToPoint_trace (B : StmBehavior) (st : CoqDocumentState)
    (offset : Int) (token : CancellationToken) :
    (CoqDocument.interpretToPoint B st offset token).2.2 =
      (Output.sendHighlightUpdates
          [{ style := HighlightType.Parsing,
             range := { start := (CoqDocument.assertedStm st).focus,
                        stop := positionAtI (CoqDocument.assertStm st).documentText offset } }] ::
        (B.interpretToPoint (CoqDocument.assertedStm st)
            (positionAtI (CoqDocument.assertStm st).documentText offset) token).2.2) ++
        [Output.sendDiagnostics (CoqDocument.updateDiagnostics
          (stmErrorsOf (CoqDocument.interpretToPoint B st offset token).2.1))] := rfl

/-- The notification trace of `interpretToEnd` ends with the rebuilt
diagnostics of the final STM state. -/
theorem interpretToEnd_trace (B : StmBehavior) (st : CoqDocumentState)
    (token : CancellationToken) :
    (CoqDocument.interpretToEnd B st token).2.2 =
      (CoqDocument.interpretToPoint B (CoqDocument.assertStm st)
          (((CoqDocument.assertStm st).documentText.length : Int)) token).2.2 ++
        [Output.sendDiagnostics (CoqDocument.updateDiagnostics
          (stmErrorsOf (CoqDocument.interpretToEnd B st token).2.1))] := rfl

/-- The notification trace of the controller's `getGoal`: the rebuilt
diagnostics when the STM runs, nothing at all otherwise. -/
theorem getGoal_trace (B : StmBehavior) (st : CoqDocumentState) :
    (CoqDocument.getGoal B st).2.2 =
      (if stmIsRunning st then
        [Output.sendDiagnostics (CoqDocument.updateDiagnostics (stmErrorsOf st))]
      else []) := by
  rcases st with ⟨txt, v, stm, gen⟩
  rcases stm with _ | s
  · rfl
  · rcases hr : s.running
    · simp [CoqDocument.getGoal, stmIsRunning, hr]
    · simp [CoqDocument.getGoal, stmIsRunning, stmErrorsOf, hr]

/-! ### Claims -/

/-- C1, counterexample: the claim says a rebuilt diagnostics list is sent after
every controller operation, `getGoal` included.  But `getGoal` on a document
whose STM is not running returns `not-running` before its `try`/`finally`, so
nothing is sent — here the STM's error set even holds one error that the claim
would require to be republished. -/
theorem C1_counterexample :
    CoqDocument.getGoal stmB0 stDead = (CommandResult.notRunning, stDead, []) ∧
    stmErrorsOf stDead = [sampleError] := by
  constructor <;> rfl

/-- C1, amended: after each mutating operation (`stepForward`, `stepBackward`,
`interpretToPoint`, `interpretToEnd`) the last notification sent is the
diagnostics list, rebuilt from scratch as exactly one severity-Error diagnostic
per error in the STM's final error set and sent as a full replacement list;
`getGoal` does the same when the STM exists and is running, and sends nothing
(returning `not-running`) otherwise. -/
theorem C1_diagnostics_after_operations (B : StmBehavior) (st : CoqDocumentState)
    (offset : Int) (token : CancellationToken) :
    (∃ pre, (CoqDocument.stepForward B st).2.2 =
      pre ++ [Output.sendDiagnostics (CoqDocument.updateDiagnostics
        (stmErrorsOf (CoqDocument.stepForward B st).2.1))]) ∧
    (∃ pre, (CoqDocument.stepBackward B st).2.2 =
      pre ++ [Output.sendDiagnostics (CoqDocument.updateDiagnostics
        (stmErrorsOf (CoqDocument.stepBackward B st).2.1))]) ∧
    (∃ pre, (CoqDocument.interpretToPoint B st offset token).2.2 =
      pre ++ [Output.sendDiagnostics (CoqDocument.updateDiagnostics
        (stmErrorsOf (CoqDocument.interpretToPoint B st offset token).2.1))]) ∧
    (∃ pre, (CoqDocument.interpretToEnd B st token).2.2 =
      pre ++ [Output.sendDiagnostics (CoqDocument.updateDiagnostics
        (stmErrorsOf (CoqDocument.interpretToEnd B st token).2.1))]) ∧
    ((CoqDocument.getGoal B st).2.2 =
      (if stmIsRunning st then
        [Output.sendDiagnostics (CoqDocument.updateDiagnostics (stmErrorsOf st))]
      else [])) ∧
    (∀ errors, CoqDocument.updateDiagnostics errors = errors.map fun e =>
      { range := e.range, message := e.message,
        severity := DiagnosticSeverity.Error, source := "coqtop" }) ∧
    (∀ errors, (CoqDocument.updateDiagnostics errors).length = errors.length) := by
  refine ⟨⟨_, stepForward_trace B st⟩, ⟨_, stepBackward_trace B st⟩,
    ⟨_, interpretToPoint_trace B st offset token⟩, ⟨_, interpretToEnd_trace B st token⟩,
    getGoal_trace B st, fun errors => rfl, fun errors => ?_⟩
  simp [CoqDocument.updateDiagnostics]

/-- C2, counterexample: on a document whose prover has died, `stepForward`
does not return `NotRunning`; its `assertStm` restarts the prover (the STM
generation counter increases) and the operation proceeds against the fresh
STM. -/
theorem C2_counterexample :
    stmIsRunning stDead = false ∧
    (CoqDocument.stepForward stmB0 stDead).1 ≠ CommandResult.notRunning ∧
    (CoqDocument.stepForward stmB0 stDead).2.1.stmGeneration = stDead.stmGeneration + 1 := by
  refine ⟨rfl, ?_, rfl⟩
  decide

/-- C2, amended: after the STM is not running, the mutating controller
operations do not return `NotRunning` until reset — each of them calls
`assertStm` first, which restarts the prover on its own (a fresh
`CoqStateMachine` is constructed, observable as a generation bump) exactly
when the STM was missing or not running, and then proceeds normally. -/
theorem C2_mutating_ops_restart_prover (B : StmBehavior) (st : CoqDocumentState)
    (offset : Int) (token : CancellationToken) :
    stmIsRunning (CoqDocument.assertStm st) = true ∧
    (CoqDocument.stepForward B st).2.1.stmGeneration =
      (if stmIsRunning st then st.stmGeneration else st.stmGeneration + 1) ∧
    (CoqDocument.stepBackward B st).2.1.stmGeneration =
      (if stmIsRunning st then st.stmGeneration else st.stmGeneration + 1) ∧
    (CoqDocument.interpretToPoint B st offset token).2.1.stmGeneration =
      (if stmIsRunning st then st.stmGeneration else st.stmGeneration + 1) ∧
    (CoqDocument.interpretToEnd B st token).2.1.stmGeneration =
      (if stmIsRunning st then st.stmGeneration else st.stmGeneration + 1) := by
  refine ⟨assertStm_running st, ?_, ?_, ?_, ?_⟩
  · exact assertStm_stmGeneration st
  · exact assertStm_stmGeneration st
  · exact assertStm_stmGeneration st
  · show (CoqDocument.assertStm (CoqDocument.assertStm st)).stmGeneration = _
    rw [assertStm_idem]
    exact assertStm_stmGeneration st

/-- C3, counterexample: a batch arriving with `newVersion = 3` against a
document at version 5 is not rejected with a StaleEdit and the state does not
stay unchanged: the STM's own rejection is merely logged to the console, the
change is spliced into the document text, and the version counter is set to
the stale value 3. -/
theorem C3_counterexample :
    stRunning.version = 5 ∧
    (CoqDocument.applyTextEdits stmB0 stRunning [sampleChange] 3).1.version = 3 ∧
    (CoqDocument.applyTextEdits stmB0 stRunning [sampleChange] 3).1.documentText =
      "X. B. C.".toList ∧
    (CoqDocument.applyTextEdits stmB0 stRunning [sampleChange] 3).2 =
      [Output.consoleError "STM crashed while applying text edit: version is not monotone"] := by
  refine ⟨rfl, rfl, ?_, rfl⟩
  decide

/-- C3, amended: `applyTextEdits` performs no version-monotonicity check: for
every batch and every `newVersion` — including `newVersion ≤ current` — the
changes are applied to the document text and the version counter is set to
`newVersion`; a failure of the STM's `applyChanges` is caught and logged to the
console, and the text and version are updated anyway. -/
theorem C3_applyTextEdits_unconditional (B : StmBehavior) (st : CoqDocumentState)
    (changes : List TextDocumentContentChangeEvent) (newVersion : Int) :
    (CoqDocument.applyTextEdits B st changes newVersion).1.version = newVersion ∧
    (CoqDocument.applyTextEdits B st changes newVersion).1.documentText =
      (List.insertionSort CoqDocument.changeLE changes).foldl
        CoqDocument.applyChangeStep st.documentText ∧
    (∀ s e, st.stm = some s →
      B.applyChanges s (List.insertionSort CoqDocument.changeLE changes) newVersion =
        Except.error e →
      (CoqDocument.applyTextEdits B st changes newVersion).2 =
        [Output.consoleError ("STM crashed while applying text edit: " ++ e)]) := by
  refine ⟨rfl, rfl, fun s e hs he => ?_⟩
  simp only [CoqDocument.applyTextEdits, CoqDocument.applyTextEditsStmPart, hs, he]

/-- C3, witness: the amended theorem evaluated on the concrete stale batch. -/
theorem C3_witness :
    (CoqDocument.applyTextEdits stmB0 stRunning [sampleChange] 3).1.version = 3 ∧
    (CoqDocument.applyTextEdits stmB0 stRunning [sampleChange] 3).2 =
      [Output.consoleError ("STM crashed while applying text edit: " ++
        "version is not monotone")] :=
  ⟨(C3_applyTextEdits_unconditional stmB0 stRunning [sampleChange] 3).1,
   (C3_applyTextEdits_unconditional stmB0 stRunning [sampleChange] 3).2.2
     runningStm "version is not monotone" rfl rfl⟩

/-- C4: the command iterator can yield a command whose end offset exceeds the
target offset, contradicting both the claim and the generator's own doc
comment ("stop at the last command to not exceed the offset").  On the
document `A. B. C.` with target offset 4, the second pull yields the command
covering offsets `[2, 5)` — its end offset 5 exceeds the target 4, because the
loop guard `commandLength > 0 || nextOffset > endOffset` accepts any parsed
command and the parse window `substr(currentOffset, endOffset)` passes the end
offset where `substr` expects a length. -/
theorem C4_generator_exceeds_target :
    (CoqDocument.commandSequenceGeneratorInit "A. B. C.".toList ⟨0, 0⟩ (some ⟨0, 4⟩)).2 = 4 ∧
    CoqDocument.genPulls "A. B. C.".toList
        (CoqDocument.commandSequenceGeneratorInit "A. B. C.".toList ⟨0, 0⟩ (some ⟨0, 4⟩)).2
        false 2
        (CoqDocument.commandSequenceGeneratorInit "A. B. C.".toList ⟨0, 0⟩ (some ⟨0, 4⟩)).1 =
      [GenEvent.yielded 0 2 "A.".toList ⟨⟨0, 0⟩, ⟨0, 2⟩⟩,
       GenEvent.yielded 2 5 " B.".toList ⟨⟨0, 2⟩, ⟨0, 5⟩⟩] ∧
    (5 : Int) > 4 := by
  refine ⟨rfl, ?_, by decide⟩
  decide

/-- C5: `applyTextEdits` applies the batch in reverse document order — there is
a permutation of the incoming changes, sorted so that a change never starts
before its successor (latest start position first), such that the new document
text is the left fold of the per-change splice over exactly that order — and
the version counter is set to `newVersion` together with the batch. -/
theorem C5_reverse_order_batch (B : StmBehavior) (st : CoqDocumentState)
    (changes : List TextDocumentContentChangeEvent) (newVersion : Int) :
    ∃ sorted : List TextDocumentContentChangeEvent,
      List.Perm changes sorted ∧
      List.Sorted CoqDocument.changeLE sorted ∧
      (CoqDocument.applyTextEdits B st changes newVersion).1.documentText =
        sorted.foldl CoqDocument.applyChangeStep st.documentText ∧
      (CoqDocument.applyTextEdits B st changes newVersion).1.version = newVersion :=
  ⟨List.insertionSort CoqDocument.changeLE changes,
   (List.perm_insertionSort _ _).symm,
   List.sorted_insertionSort _ _, rfl, rfl⟩

/-- C6, counterexample: a `Died` event without a reason is ignored by
`onCoqDied` (`if(!error) return;`): the STM is left as it is and no reset
notification is emitted, contradicting "with or without a reason". -/
theorem C6_counterexample :
    CoqDocument.onCoqDied none stDead = (stDead, []) := rfl

/-- C6, amended: only a prover death carrying a non-empty reason makes the
controller restart the prover (a fresh running STM, generation bump) and emit
the reset notification; a death with no reason, or an empty reason string,
changes nothing and emits nothing. -/
theorem C6_died_with_reason_only (error : Option String) (st : CoqDocumentState) :
    (CoqDocument.onCoqDied error st).2 =
      (if (error.getD "").isEmpty then [] else [Output.sendReset]) ∧
    (CoqDocument.onCoqDied error st).1.stmGeneration =
      (if (error.getD "").isEmpty then st.stmGeneration else st.stmGeneration + 1) ∧
    stmIsRunning (CoqDocument.onCoqDied error st).1 =
      (if (error.getD "").isEmpty then stmIsRunning st else true) ∧
    (CoqDocument.onCoqDied error st).1.documentText = st.documentText := by
  unfold CoqDocument.onCoqDied
  rcases h : (error.getD "").isEmpty <;>
    simp [h, CoqDocument.resetCoq, stmIsRunning, freshStm]

/-- The spec's status-to-style table (section 4.4), written from the spec's
words for comparison with the source's mapping.  The spec names the source's
`ProcessingInput` status "Processing"; its table rows for Error and Cleared
describe the dedicated error and clear-sentence events, which the controller
handles in `onCoqStateError` and `onClearSentence`. -/
def specStatusStyle : SentenceStatus → HighlightType
  | SentenceStatus.Parsed => HighlightType.Parsing
  | SentenceStatus.ProcessingInput => HighlightType.Processing
  | SentenceStatus.InProgress => HighlightType.InProgress
  | SentenceStatus.Incomplete => HighlightType.Incomplete
  | SentenceStatus.Processed => HighlightType.Processed
  | SentenceStatus.Complete => HighlightType.Complete

/-- C7: for every sentence status event the controller sends exactly one
highlight whose style is the image of the status under the fixed total mapping
of the spec's table (and nothing else); the error event sends the
`TacticFailure` highlight for the sentence range (followed by the rebuilt
diagnostics), and the clear-sentence event sends the `Clear` highlight. -/
theorem C7_status_highlight_mapping (range errorRange : Range)
    (status : SentenceStatus) (message : String) (stmErrors : List StmError) :
    CoqDocument.sentenceStatusToHighlightType status = specStatusStyle status ∧
    CoqDocument.onCoqStateStatusUpdate range status =
      [Output.sendHighlightUpdates [{ style := specStatusStyle status, range := range }]] ∧
    CoqDocument.onClearSentence range =
      [Output.sendHighlightUpdates [{ style := HighlightType.Clear, range := range }]] ∧
    CoqDocument.onCoqStateError range errorRange message stmErrors =
      [Output.sendHighlightUpdates [{ style := HighlightType.TacticFailure, range := range }],
       Output.sendDiagnostics (CoqDocument.updateDiagnostics stmErrors)] := by
  cases status <;> exact ⟨rfl, rfl, rfl, rfl⟩

/-- C8, counterexample: on the document `A. B. C.` the generator — even when
invoked with its highlight flag set — yields the first command (which the STM
then submits with `add`) without any `Parsing` highlight having been emitted,
contradicting "a Parsing-style highlight ... is emitted to the client before
the add call is issued". -/
theorem C8_counterexample :
    CoqDocument.genPulls "A. B. C.".toList
        (CoqDocument.commandSequenceGeneratorInit "A. B. C.".toList ⟨0, 0⟩ none).2 true 1
        (CoqDocument.commandSequenceGeneratorInit "A. B. C.".toList ⟨0, 0⟩ none).1 =
      [GenEvent.yielded 0 2 "A.".toList ⟨⟨0, 0⟩, ⟨0, 2⟩⟩] := by
  decide

/-- C8, amended: no `Parsing` highlight precedes an `add`.  First,
`commandSequence` drops its highlight flag when instantiating the generator,
so the iterator `stepForward` passes to the STM never emits any highlight
event; second, even with the flag forwarded, the generator emits a command's
highlight only after the command has been yielded and the consumer pulls
again, so the first pull emits no highlight — and nothing clears highlights
on a failed `add`. -/
theorem C8_no_parsing_highlight_before_add (hl : Bool) (documentText : List Char)
    (beginPos : Position) (endPos : Option Position) (pulls : Nat) :
    (CoqDocument.commandSequence hl documentText beginPos endPos pulls).filter
      GenEvent.isHighlightEvt = [] ∧
    (CoqDocument.genPulls documentText
        (CoqDocument.commandSequenceGeneratorInit documentText beginPos endPos).2 true 1
        (CoqDocument.commandSequenceGeneratorInit documentText beginPos endPos).1).filter
      GenEvent.isHighlightEvt = [] := by
  constructor
  · exact genPulls_no_highlight_of_flag_false _ _ _ _
  · have h1 : CoqDocument.genPulls documentText
        (CoqDocument.commandSequenceGeneratorInit documentText beginPos endPos).2 true 1
        (CoqDocument.commandSequenceGeneratorInit documentText beginPos endPos).1 =
        (CoqDocument.genPull documentText
          (CoqDocument.commandSequenceGeneratorInit documentText beginPos endPos).2 true
          (CoqDocument.commandSequenceGeneratorInit documentText beginPos endPos).1).2 ++ [] := rfl
    rw [h1, List.append_nil]
    exact genPull_no_highlight_of_pending_none _ _ _ _ rfl

/-- C9: `toGoal` preserves the STM's goal result and annotates it with the
given focused position on every variant except `not-running`, which is
returned unchanged and carries no focus field. -/
theorem C9_toGoal_focus_annotation (focusedPosition : Position) (goal : GoalResult) :
    (CoqDocument.toGoal focusedPosition goal).stripFocus = goal ∧
    (CoqDocument.toGoal focusedPosition goal).focusOf =
      (if goal = GoalResult.notRunning then none else some focusedPosition) := by
  cases goal <;>
    exact ⟨rfl, rfl⟩

/-- C10, counterexample: on a concrete running document, `interpretToEnd` and
`interpretToPoint` at the document length emit different notification traces —
the former sends the diagnostics list twice. -/
theorem C10_counterexample :
    (CoqDocument.interpretToEnd stmB0 stRunning false).2.2 ≠
      (CoqDocument.interpretToPoint stmB0 stRunning
        ((stRunning.documentText.length : Int)) false).2.2 := by
  decide

/-- C10, amended: `interpretToEnd(token)` returns the same result and the same
final document state as `interpretToPoint(documentText.length, token)` — the
inner call's `CommandResult` is a truthy JavaScript object, so the early
return always fires — but it does not perform the same client notifications:
its own `finally` appends one extra diagnostics notification to the inner
call's trace. -/
theorem C10_interpretToEnd_vs_interpretToPoint (B : StmBehavior)
    (st : CoqDocumentState) (token : CancellationToken) :
    (CoqDocument.interpretToEnd B st token).1 =
      (CoqDocument.interpretToPoint B st ((st.documentText.length : Int)) token).1 ∧
    (CoqDocument.interpretToEnd B st token).2.1 =
      (CoqDocument.interpretToPoint B st ((st.documentText.length : Int)) token).2.1 ∧
    (CoqDocument.interpretToEnd B st token).2.2 =
      (CoqDocument.interpretToPoint B st ((st.documentText.length : Int)) token).2.2 ++
        [Output.sendDiagnostics (CoqDocument.updateDiagnostics
          (stmErrorsOf (CoqDocument.interpretToPoint B st
            ((st.documentText.length : Int)) token).2.1))] := by
  have h : CoqDocument.interpretToPoint B (CoqDocument.assertStm st)
      (((CoqDocument.assertStm st).documentText.length : Int)) token =
      CoqDocument.interpretToPoint B st ((st.documentText.length : Int)) token := by
    rw [assertStm_documentText, interpretToPoint_assertStm]
  simp only [CoqDocument.interpretToEnd]
  rw [h]
  exact ⟨rfl, rfl, rfl⟩

end VsCoq
